import Mathlib

/-!
Shallow embedding of the swapr-expeditions-services fragment-claiming
engine.  The repository ships only the controller tests
(`Tasks.controller.spec.ts`, `expeditions.controller.spec.ts`), the HTTP
route table and the `IVisit` interface; the service implementations
(task claim engine, visit tracker, week calculator, campaign resolver)
are modelled here from spec.md, faithful to its words, and checked
against the behaviour the tests pin down.
-/

namespace Swapr

/-- Task types of the claiming engine (`TasksTypes` in `Tasks.types`). -/
inductive TaskType where
  | VISIT
  | LIQUIDITY_PROVISION
  | LIQUIDITY_STAKING
deriving DecidableEq, Repr

/-- String name of a task type, as it appears in signed messages and
error messages. -/
def TaskType.name : TaskType → String
  | .VISIT => "VISIT"
  | .LIQUIDITY_PROVISION => "LIQUIDITY_PROVISION"
  | .LIQUIDITY_STAKING => "LIQUIDITY_STAKING"

/-! ## Week calculator

Modelled from the spec: `getWeekInformation` (src/src/modules/expeditions/utils
is absent from the sources; only its import in the tests is visible).  Spec
§4.3 asks for an ISO-like week number, year and human label, computed from
the current time with a fixed week-start convention, deterministic, and with
week arithmetic that rolls over year boundaries.

Days are counted from 1969-12-29, a Monday (the start of ISO week 1 of
1970), so that every Monday has day-number ≡ 0 (mod 7).  Timestamps are
seconds since the Unix epoch 1970-01-01, which is day 3 of this count. -/

/-- Gregorian leap-year test. -/
def isLeap (y : Nat) : Bool :=
  y % 4 == 0 && (y % 100 != 0 || y % 400 == 0)

/-- Number of days in calendar year `y`. -/
def daysInYear (y : Nat) : Nat := if isLeap y then 366 else 365

/-- Days from 1969-12-29 to January 1 of year `1970 + n`. -/
def daysToYearAux : Nat → Nat
  | 0 => 3
  | n + 1 => daysToYearAux n + daysInYear (1970 + n)

/-- Days from 1969-12-29 to January 1 of year `y` (for `y ≥ 1970`). -/
def daysToYear (y : Nat) : Nat := daysToYearAux (y - 1970)

/-- Day number of January 4 of year `y`; January 4 always lies in ISO
week 1 of `y`. -/
def jan4 (y : Nat) : Nat := daysToYear y + 3

/-- Day number of the Monday starting ISO week 1 of year `y`. -/
def isoWeek1Start (y : Nat) : Nat := jan4 y - jan4 y % 7

/-- Number of ISO weeks (52 or 53) in year `y`. -/
def isoWeeksInYear (y : Nat) : Nat :=
  (isoWeek1Start (y + 1) - isoWeek1Start y) / 7

/-- A week bucket: ISO week number and ISO week-based year. -/
structure WeekRef where
  weekNumber : Nat
  year : Nat
deriving DecidableEq, Repr

/-- ISO week-based year of day `d`: the largest `y` with
`isoWeek1Start y ≤ d`, found by walking down from an over-approximation. -/
def isoWeekYearAux (d : Nat) : Nat → Nat → Nat
  | 0, y => y
  | fuel + 1, y => if isoWeek1Start y ≤ d then y else isoWeekYearAux d fuel (y - 1)

/-- ISO week-based year of day `d`. -/
def isoWeekYearOf (d : Nat) : Nat :=
  let g := 1970 + d / 365 + 1
  isoWeekYearAux d g g

/-- ISO week bucket (week number and week-based year) of day `d`. -/
def weekOfDay (d : Nat) : WeekRef :=
  ⟨(d - isoWeek1Start (isoWeekYearOf d)) / 7 + 1, isoWeekYearOf d⟩

/-- Modelled from the spec: the week bucket consulted as "week − 1" for
streak lookups; week 1 of year `y` rolls over to the last ISO week of
year `y − 1` (spec §4.3). -/
def prevWeek (w : WeekRef) : WeekRef :=
  if w.weekNumber = 1 then ⟨isoWeeksInYear (w.year - 1), w.year - 1⟩
  else ⟨w.weekNumber - 1, w.year⟩

/-- Derived week information (`WeekInformation` in the tests): week
number, year, human label and the week's start/end timestamps. -/
structure WeekInformation where
  weekNumber : Nat
  year : Nat
  weekDate : String
  startDate : Nat
  endDate : Nat
deriving Repr

/-- Modelled from the spec: `getWeekInformation` over a timestamp `now`
(seconds since the Unix epoch). -/
def weekStartDay (d : Nat) : Nat :=
  isoWeek1Start (weekOfDay d).year + 7 * ((weekOfDay d).weekNumber - 1)

def getWeekInformation (now : Nat) : WeekInformation :=
  { weekNumber := (weekOfDay (now / 86400 + 3)).weekNumber
    year := (weekOfDay (now / 86400 + 3)).year
    weekDate := s!"Week {(weekOfDay (now / 86400 + 3)).weekNumber} of {(weekOfDay (now / 86400 + 3)).year}"
    startDate := (weekStartDay (now / 86400 + 3) - 3) * 86400
    endDate := (weekStartDay (now / 86400 + 3) + 7 - 3) * 86400 }

/-! ## Data model (spec §3, `IVisit.interface.ts`, the models used by the
tests) -/

/-- Campaign record (`ICampaign`); dates are timestamps in seconds. -/
structure Campaign where
  id : Nat
  startDate : Nat
  endDate : Nat
  redeemEndDate : Nat
  initiatorAddress : String
deriving DecidableEq, Repr

/-- Visit record (`IVisit.interface.ts`): address, campaign, visit count
and timestamp of the last credited visit. -/
structure Visit where
  address : String
  campaign_id : Nat
  allVisits : Nat
  lastVisit : Nat
deriving DecidableEq, Repr

/-- WeeklyFragment record (`WeeklyFragmentModel` as used by the tests). -/
structure WeeklyFragment where
  address : String
  campaign_id : Nat
  type : TaskType
  week : Nat
  year : Nat
  fragments : Nat
deriving DecidableEq, Repr

/-- Persistent store: the three collections of spec §6. -/
structure Store where
  campaigns : List Campaign
  visits : List Visit
  weeklyFragments : List WeeklyFragment
deriving DecidableEq, Repr

/-! ## External position reader (spec §6 contract) -/

/-- One liquidity-provision deposit returned by the subgraph. -/
structure ProvisionDeposit where
  amountUSD : ℚ
deriving DecidableEq, Repr

/-- Stakable pair data carried by a staking deposit. -/
structure StakablePair where
  totalSupply : ℚ
  reserveUSD : ℚ
deriving DecidableEq, Repr

/-- Liquidity-mining campaign data carried by a staking deposit. -/
structure LiquidityMiningCampaign where
  stakablePair : StakablePair
deriving DecidableEq, Repr

/-- One liquidity-staking deposit returned by the subgraph. -/
structure StakingDeposit where
  amount : ℚ
  liquidityMiningCampaign : LiquidityMiningCampaign
deriving DecidableEq, Repr

/-- Injectable subgraph collaborator (`multichainSubgraphService`): the
two query methods of spec §6, as functions of address and the week's
start/end timestamps. -/
structure SubgraphService where
  getLiquidityPositionDepositsBetweenTimestampAAndTimestampB :
    String → Nat → Nat → List ProvisionDeposit
  getLiquidityStakingPositionBetweenTimestampAAndTimestampB :
    String → Nat → Nat → List StakingDeposit

/-- USD-equivalent value of one staking deposit:
`amount / totalSupply * reserveUSD` (spec §6). -/
def stakingDepositUsdValue (p : StakingDeposit) : ℚ :=
  p.amount / p.liquidityMiningCampaign.stakablePair.totalSupply
    * p.liquidityMiningCampaign.stakablePair.reserveUSD

/-- Modelled from the spec: summed USD-equivalent value of the address's
positions for a weekly task type over a timestamp range (spec §4.5
step 3–4).  `VISIT` has no positions. -/
def totalUsdValue (svc : SubgraphService) (address : String)
    (taskType : TaskType) (tsA tsB : Nat) : ℚ :=
  match taskType with
  | .VISIT => 0
  | .LIQUIDITY_PROVISION =>
    ((svc.getLiquidityPositionDepositsBetweenTimestampAAndTimestampB
        address tsA tsB).map (fun p => p.amountUSD)).sum
  | .LIQUIDITY_STAKING =>
    ((svc.getLiquidityStakingPositionBetweenTimestampAAndTimestampB
        address tsA tsB).map stakingDepositUsdValue).sum

/-! ## Campaign resolver (spec §4.2) -/

/-- A campaign is active at `now` when `startDate ≤ now ≤ endDate`. -/
def campaignActiveAt (c : Campaign) (now : Nat) : Bool :=
  decide (c.startDate ≤ now ∧ now ≤ c.endDate)

/-- Modelled from the spec: `findActiveCampaign now` returns the campaign
whose date range contains `now`; with overlapping campaigns the first
match by start date wins; `none` when no campaign is active (spec §4.2). -/
def findActiveCampaign (cs : List Campaign) (now : Nat) : Option Campaign :=
  match cs.filter (fun c => campaignActiveAt c now) with
  | [] => none
  | c :: rest =>
    some (rest.foldl (fun best x => if x.startDate < best.startDate then x else best) c)

/-! ## Visit tracker (spec §4.4) -/

/-- Two timestamps fall on the same UTC calendar day. -/
def sameUtcDay (a b : Nat) : Bool := a / 86400 == b / 86400

/-- Find the Visit record for (address, campaign). -/
def findVisit (l : List Visit) (address : String) (campaignId : Nat) :
    Option Visit :=
  l.find? fun v => decide (v.address = address ∧ v.campaign_id = campaignId)

/-- Modelled from the spec: `registerVisit` (spec §4.4).  A new record
starts at `allVisits = 0` and is immediately credited, so its stored
count is 1; an existing record is returned unchanged when `lastVisit`
falls on the same UTC day as `now`, otherwise `allVisits` is incremented
and `lastVisit` set to `now`.  Returns the new store and the resulting
record. -/
def registerVisit (store : Store) (address : String) (campaignId : Nat)
    (now : Nat) : Store × Visit :=
  match findVisit store.visits address campaignId with
  | some v =>
    if sameUtcDay v.lastVisit now then (store, v)
    else
      let v' : Visit :=
        { v with allVisits := v.allVisits + 1, lastVisit := now }
      ({ store with
          visits := store.visits.map fun x =>
            if decide (x.address = address ∧ x.campaign_id = campaignId)
            then v' else x },
        v')
  | none =>
    let v' : Visit :=
      { address := address, campaign_id := campaignId
        allVisits := 1, lastVisit := now }
    ({ store with visits := v' :: store.visits }, v')

/-- Visit state returned by the daily-visits query. -/
structure VisitState where
  address : String
  allVisits : Nat
  lastVisit : Nat
deriving DecidableEq, Repr

/-- Modelled from the spec: `getVisits` returns
`{address, allVisits: 0, lastVisit: 0}` defaults when no record exists
(spec §4.4); a total query, never an error. -/
def getVisits (store : Store) (address : String) (campaignId : Nat) :
    VisitState :=
  match findVisit store.visits address campaignId with
  | none => { address := address, allVisits := 0, lastVisit := 0 }
  | some v =>
    { address := v.address, allVisits := v.allVisits, lastVisit := v.lastVisit }

/-! ## Fragment claim engine (spec §4.5, §7) -/

/-- Claim-rejection errors of the engine (spec §7 taxonomy; the crypto
and transport errors stay at the HTTP boundary). -/
inductive ClaimError where
  | noActiveCampaign
  | alreadyClaimed (typeName weekDate : String)
  | noClaimableFragments
deriving DecidableEq, Repr

/-- The stable user-facing message of each claim error (spec §7: exact
strings matter). -/
def ClaimError.message : ClaimError → String
  | .noActiveCampaign => "No active campaign has been found"
  | .alreadyClaimed typeName weekDate =>
    s!"Weekly fragment for {typeName} for {weekDate} already claimed"
  | .noClaimableFragments => "No claimable fragments"

/-- Result of a successful claim (`ClaimResult` in `Tasks.types`). -/
structure ClaimResult where
  type : TaskType
  claimedFragments : Nat
deriving DecidableEq, Repr

/-- Find the WeeklyFragment record for (address, campaign, type, week,
year). -/
def findWeeklyFragment (l : List WeeklyFragment) (address : String)
    (campaignId : Nat) (taskType : TaskType) (week year : Nat) :
    Option WeeklyFragment :=
  l.find? fun r =>
    decide (r.address = address ∧ r.campaign_id = campaignId ∧
      r.type = taskType ∧ r.week = week ∧ r.year = year)

/-- Minimum USD-equivalent total for a weekly claim (spec §4.5 step 4). -/
def minimumUsdThreshold : ℚ := 50

/-- Modelled from the spec: the final fragment amount of a weekly claim
(spec §4.5 steps 5–6).  The base award is `⌊total USD⌋` mapped 1:1 to
fragments; when the address claimed this task type in BOTH of the two
prior consecutive weeks, the observed streak behaviour (prior weeks of
50 and 100 yield exactly 150, the current base not separately added)
awards the sum of the two prior weeks' fragments. -/
def finalFragments (base : Nat)
    (prior1 prior2 : Option WeeklyFragment) : Nat :=
  match prior1, prior2 with
  | some r1, some r2 => r1.fragments + r2.fragments
  | _, _ => base

/-- Modelled from the spec: the weekly branch of the claim engine for
`LIQUIDITY_PROVISION` / `LIQUIDITY_STAKING` (spec §4.5 steps 1–6).
Errors leave the store unchanged. -/
def claimWeekly (store : Store) (svc : SubgraphService) (address : String)
    (taskType : TaskType) (now : Nat) (campaignId : Nat) :
    Store × Except ClaimError ClaimResult :=
  let w := getWeekInformation now
  match findWeeklyFragment store.weeklyFragments address campaignId taskType
      w.weekNumber w.year with
  | some _ =>
    (store, .error (.alreadyClaimed taskType.name w.weekDate))
  | none =>
    let total := totalUsdValue svc address taskType w.startDate w.endDate
    if total < minimumUsdThreshold then
      (store, .error .noClaimableFragments)
    else
      let wr : WeekRef := ⟨w.weekNumber, w.year⟩
      let w1 := prevWeek wr
      let w2 := prevWeek (prevWeek wr)
      let prior1 := findWeeklyFragment store.weeklyFragments address
        campaignId taskType w1.weekNumber w1.year
      let prior2 := findWeeklyFragment store.weeklyFragments address
        campaignId taskType w2.weekNumber w2.year
      let base := (Rat.floor total).toNat
      let final := finalFragments base prior1 prior2
      ({ store with
          weeklyFragments :=
            { address := address, campaign_id := campaignId
              type := taskType, week := w.weekNumber, year := w.year
              fragments := final } :: store.weeklyFragments },
        .ok { type := taskType, claimedFragments := final })

/-- Modelled from the spec: the claim operation
`claim(address, campaignId, taskType, now)` of spec §4.5.  Resolves the
active campaign, then for `VISIT` delegates to the visit tracker and
returns zero claimed fragments; for the liquidity task types runs the
weekly claim pipeline.  Errors leave the store unchanged. -/
def claim (store : Store) (svc : SubgraphService) (address : String)
    (taskType : TaskType) (now : Nat) :
    Store × Except ClaimError ClaimResult :=
  match findActiveCampaign store.campaigns now with
  | none => (store, .error .noActiveCampaign)
  | some c =>
    match taskType with
    | .VISIT =>
      let p := registerVisit store address c.id now
      (p.1, .ok { type := .VISIT, claimedFragments := 0 })
    | .LIQUIDITY_PROVISION => claimWeekly store svc address taskType now c.id
    | .LIQUIDITY_STAKING => claimWeekly store svc address taskType now c.id

/-- Two WeeklyFragment records share the (address, campaign, type, week,
year) uniqueness tuple (spec §3). -/
def sameKey (a b : WeeklyFragment) : Prop :=
  a.address = b.address ∧ a.campaign_id = b.campaign_id ∧
    a.type = b.type ∧ a.week = b.week ∧ a.year = b.year

/-- The spec §3 uniqueness invariant: no two WeeklyFragment records share
the (address, campaign, type, week, year) tuple. -/
def UniqWeeklyFragments (l : List WeeklyFragment) : Prop :=
  l.Pairwise fun a b => ¬ sameKey a b

/-! ## Concrete test fixtures

Small concrete stores mirroring the setups of
`Tasks.controller.spec.ts`: an active campaign, a subgraph stub
returning one 50-USD (or 30-USD) position, prior-week fragment records
of 100 and 50, and visit records.  The timestamp 1000000000 falls in ISO
week 36 of 2001. -/

def wCampaign : Campaign := ⟨1, 0, 2000000000, 2100000000, "0x0"⟩

def svcFifty : SubgraphService :=
  ⟨fun _ _ _ => [⟨50⟩], fun _ _ _ => [⟨50, ⟨⟨1, 1⟩⟩⟩]⟩

def svcThirty : SubgraphService :=
  ⟨fun _ _ _ => [⟨30⟩], fun _ _ _ => [⟨30, ⟨⟨1, 1⟩⟩⟩]⟩

def wfPrev1 : WeeklyFragment :=
  ⟨"0xA", 1, .LIQUIDITY_PROVISION, 35, 2001, 100⟩

def wfPrev2 : WeeklyFragment :=
  ⟨"0xA", 1, .LIQUIDITY_PROVISION, 34, 2001, 50⟩

def wfCur : WeeklyFragment :=
  ⟨"0xA", 1, .LIQUIDITY_PROVISION, 36, 2001, 50⟩

def visitToday : Visit := ⟨"0xA", 1, 4, 1000000000⟩

def visitOld : Visit := ⟨"0xA", 1, 4, 1000000000 - 2 * 86400⟩

def storeStreak : Store := ⟨[wCampaign], [], [wfPrev1, wfPrev2]⟩

def storeClaimed : Store := ⟨[wCampaign], [], [wfCur]⟩

def storeNoWf : Store := ⟨[wCampaign], [], []⟩

def storeSameDay : Store := ⟨[wCampaign], [visitToday], []⟩

def storeOldVisit : Store := ⟨[wCampaign], [visitOld], []⟩

def storeEmpty : Store := ⟨[], [], []⟩

/-! ## Week arithmetic (calendar lemmas for C6) -/

theorem daysInYear_bounds (y : Nat) :
    365 ≤ daysInYear y ∧ daysInYear y ≤ 366 := by
  unfold daysInYear
  split <;> omega

theorem daysToYear_succ (y : Nat) (hy : 1970 ≤ y) :
    daysToYear (y + 1) = daysToYear y + daysInYear y := by
  unfold daysToYear
  have h : y + 1 - 1970 = (y - 1970) + 1 := by omega
  have h2 : 1970 + (y - 1970) = y := by omega
  rw [h]
  generalize hn : y - 1970 = n
  rw [hn] at h2
  simp only [daysToYearAux]
  rw [h2]

theorem daysToYearAux_lb (n : Nat) : 365 * n + 3 ≤ daysToYearAux n := by
  induction n with
  | zero => simp only [daysToYearAux]; omega
  | succ m ih =>
    simp only [daysToYearAux]
    have := (daysInYear_bounds (1970 + m)).1
    omega

theorem isoWeek1Start_mod (y : Nat) : isoWeek1Start y % 7 = 0 := by
  unfold isoWeek1Start
  omega

theorem isoWeek1Start_le_jan4 (y : Nat) : isoWeek1Start y ≤ jan4 y := by
  unfold isoWeek1Start
  omega

theorem jan4_le_isoWeek1Start (y : Nat) : jan4 y - 6 ≤ isoWeek1Start y := by
  unfold isoWeek1Start
  omega

theorem isoWeek1Start_step (y : Nat) (hy : 1970 ≤ y) :
    isoWeek1Start y + 7 ≤ isoWeek1Start (y + 1) := by
  have h1 := isoWeek1Start_le_jan4 y
  have h2 := jan4_le_isoWeek1Start (y + 1)
  have h3 : jan4 (y + 1) = daysToYear y + daysInYear y + 3 := by
    unfold jan4
    rw [daysToYear_succ y hy]
  have h4 : jan4 y = daysToYear y + 3 := rfl
  have h5 := (daysInYear_bounds y).1
  omega

theorem isoWeek1Start_add (y : Nat) (hy : 1970 ≤ y) :
    isoWeek1Start (y + 1) = isoWeek1Start y + 7 * isoWeeksInYear y := by
  have h1 := isoWeek1Start_step y hy
  have h2 := isoWeek1Start_mod y
  have h3 := isoWeek1Start_mod (y + 1)
  unfold isoWeeksInYear
  omega

theorem isoWeeksInYear_pos (y : Nat) (hy : 1970 ≤ y) :
    1 ≤ isoWeeksInYear y := by
  have h1 := isoWeek1Start_step y hy
  have h2 := isoWeek1Start_add y hy
  omega

theorem isoWeek1Start_mono (a b : Nat) (ha : 1970 ≤ a) (hab : a ≤ b) :
    isoWeek1Start a ≤ isoWeek1Start b := by
  obtain ⟨k, rfl⟩ := Nat.exists_eq_add_of_le hab
  clear hab
  induction k with
  | zero => exact le_refl _
  | succ n ih =>
    have hs := isoWeek1Start_step (a + n) (by omega)
    have he : a + (n + 1) = (a + n) + 1 := by omega
    rw [he]
    omega

theorem isoWeek1Start_1970 : isoWeek1Start 1970 = 0 := by decide

theorem isoWeekYearAux_spec (d : Nat) : ∀ fuel y, 1970 ≤ y →
    y ≤ 1970 + fuel →
    1970 ≤ isoWeekYearAux d fuel y ∧ isoWeekYearAux d fuel y ≤ y ∧
    isoWeek1Start (isoWeekYearAux d fuel y) ≤ d ∧
    (∀ z, isoWeekYearAux d fuel y < z → z ≤ y → d < isoWeek1Start z) := by
  intro fuel
  induction fuel with
  | zero =>
    intro y hy hfuel
    have hy1970 : y = 1970 := by omega
    subst hy1970
    simp only [isoWeekYearAux]
    refine ⟨le_refl _, le_refl _, ?_, ?_⟩
    · rw [isoWeek1Start_1970]
      omega
    · intro z hz1 hz2
      omega
  | succ fuel ih =>
    intro y hy hfuel
    simp only [isoWeekYearAux]
    by_cases hd : isoWeek1Start y ≤ d
    · rw [if_pos hd]
      refine ⟨hy, le_refl _, hd, ?_⟩
      intro z hz1 hz2
      omega
    · rw [if_neg hd]
      have hy1970 : 1970 < y := by
        rcases Nat.eq_or_lt_of_le hy with h | h
        · rw [← h, isoWeek1Start_1970] at hd
          omega
        · exact h
      have h1 : 1970 ≤ y - 1 := by omega
      have h2 : y - 1 ≤ 1970 + fuel := by omega
      obtain ⟨ih1, ih2, ih3, ih4⟩ := ih (y - 1) h1 h2
      refine ⟨ih1, by omega, ih3, ?_⟩
      intro z hz1 hz2
      by_cases hzy : z ≤ y - 1
      · exact ih4 z hz1 hzy
      · have : z = y := by omega
        subst this
        omega

theorem d_lt_isoWeek1Start_upper (d : Nat) :
    d < isoWeek1Start (1970 + d / 365 + 2) := by
  have h1 := jan4_le_isoWeek1Start (1970 + d / 365 + 2)
  have h2 : jan4 (1970 + d / 365 + 2) =
      daysToYearAux (d / 365 + 2) + 3 := by
    unfold jan4 daysToYear
    have : 1970 + d / 365 + 2 - 1970 = d / 365 + 2 := by omega
    rw [this]
  have h3 := daysToYearAux_lb (d / 365 + 2)
  omega

theorem isoWeekYearOf_spec (d : Nat) :
    1970 ≤ isoWeekYearOf d ∧ isoWeek1Start (isoWeekYearOf d) ≤ d ∧
      d < isoWeek1Start (isoWeekYearOf d + 1) := by
  have hg : 1970 ≤ 1970 + d / 365 + 1 := by omega
  have hf : 1970 + d / 365 + 1 ≤ 1970 + (1970 + d / 365 + 1) := by omega
  obtain ⟨h1, h2, h3, h4⟩ :=
    isoWeekYearAux_spec d (1970 + d / 365 + 1) (1970 + d / 365 + 1) hg hf
  have hr : isoWeekYearOf d =
      isoWeekYearAux d (1970 + d / 365 + 1) (1970 + d / 365 + 1) := rfl
  refine ⟨by omega, by rw [hr]; exact h3, ?_⟩
  rw [hr]
  by_cases hcase : isoWeekYearAux d (1970 + d / 365 + 1) (1970 + d / 365 + 1) <
      1970 + d / 365 + 1
  · exact h4 _ (by omega) (by omega)
  · have heq : isoWeekYearAux d (1970 + d / 365 + 1) (1970 + d / 365 + 1) =
        1970 + d / 365 + 1 := by omega
    rw [heq]
    exact d_lt_isoWeek1Start_upper d

theorem isoWeekYearOf_eq (d y : Nat) (hy : 1970 ≤ y)
    (h1 : isoWeek1Start y ≤ d) (h2 : d < isoWeek1Start (y + 1)) :
    isoWeekYearOf d = y := by
  obtain ⟨s1, s2, s3⟩ := isoWeekYearOf_spec d
  by_cases hlt : isoWeekYearOf d < y
  · have : isoWeekYearOf d + 1 ≤ y := by omega
    have := isoWeek1Start_mono (isoWeekYearOf d + 1) y (by omega) this
    omega
  · by_cases hgt : y < isoWeekYearOf d
    · have : y + 1 ≤ isoWeekYearOf d := by omega
      have := isoWeek1Start_mono (y + 1) (isoWeekYearOf d) (by omega) this
      omega
    · omega

theorem prevWeek_mk (w y : Nat) :
    prevWeek ⟨w, y⟩ =
      if w = 1 then ⟨isoWeeksInYear (y - 1), y - 1⟩ else ⟨w - 1, y⟩ := rfl

theorem prevWeek_weekOfDay (d : Nat) :
    prevWeek (weekOfDay (d + 7)) = weekOfDay d := by
  obtain ⟨hy, ha1, ha2⟩ := isoWeekYearOf_spec (d + 7)
  have e2 : weekOfDay (d + 7) =
      ⟨(d + 7 - isoWeek1Start (isoWeekYearOf (d + 7))) / 7 + 1,
        isoWeekYearOf (d + 7)⟩ := rfl
  have e1 : weekOfDay d =
      ⟨(d - isoWeek1Start (isoWeekYearOf d)) / 7 + 1, isoWeekYearOf d⟩ := rfl
  by_cases hcase : isoWeek1Start (isoWeekYearOf (d + 7)) ≤ d
  · have hyd : isoWeekYearOf d = isoWeekYearOf (d + 7) :=
      isoWeekYearOf_eq d _ hy hcase (by omega)
    rw [e2, e1, hyd, prevWeek_mk]
    have hne : ¬ ((d + 7 - isoWeek1Start (isoWeekYearOf (d + 7))) / 7 + 1 = 1) := by
      have h7 : 7 ≤ d + 7 - isoWeek1Start (isoWeekYearOf (d + 7)) := by omega
      have : 1 ≤ (d + 7 - isoWeek1Start (isoWeekYearOf (d + 7))) / 7 := by omega
      omega
    rw [if_neg hne]
    have harith : (d + 7 - isoWeek1Start (isoWeekYearOf (d + 7))) / 7 + 1 - 1 =
        (d - isoWeek1Start (isoWeekYearOf (d + 7))) / 7 + 1 := by
      omega
    rw [harith]
  · have hlt : d < isoWeek1Start (isoWeekYearOf (d + 7)) := by omega
    have hy1971 : 1971 ≤ isoWeekYearOf (d + 7) := by
      rcases Nat.eq_or_lt_of_le hy with h | h
      · rw [← h, isoWeek1Start_1970] at hlt
        omega
      · omega
    have hprev : 1970 ≤ isoWeekYearOf (d + 7) - 1 := by omega
    have hadd := isoWeek1Start_add (isoWeekYearOf (d + 7) - 1) hprev
    have hsucc : isoWeekYearOf (d + 7) - 1 + 1 = isoWeekYearOf (d + 7) := by
      omega
    rw [hsucc] at hadd
    have hwpos := isoWeeksInYear_pos (isoWeekYearOf (d + 7) - 1) hprev
    have hyd : isoWeekYearOf d = isoWeekYearOf (d + 7) - 1 := by
      apply isoWeekYearOf_eq d _ hprev
      · omega
      · rw [hsucc]
        omega
    rw [e2, e1, hyd, prevWeek_mk]
    have hone : (d + 7 - isoWeek1Start (isoWeekYearOf (d + 7))) / 7 + 1 = 1 := by
      have : d + 7 - isoWeek1Start (isoWeekYearOf (d + 7)) < 7 := by omega
      omega
    rw [if_pos hone]
    have hweek : (d - isoWeek1Start (isoWeekYearOf (d + 7) - 1)) / 7 + 1 =
        isoWeeksInYear (isoWeekYearOf (d + 7) - 1) := by
      omega
    rw [hweek]

/-- C6: week arithmetic for streak lookups agrees with
`getWeekInformation`'s boundaries for every week — moving one or two
weeks back in time moves the bucket through `prevWeek` once or twice —
and week 1 of year `Y` minus 1 resolves to the last ISO week of year
`Y − 1`, not week 0 of year `Y`. -/
theorem week_arithmetic_rollover :
    (∀ d : Nat, prevWeek (weekOfDay (d + 7)) = weekOfDay d ∧
      prevWeek (prevWeek (weekOfDay (d + 14))) = weekOfDay d) ∧
    (∀ now : Nat,
      prevWeek ⟨(getWeekInformation (now + 604800)).weekNumber,
        (getWeekInformation (now + 604800)).year⟩ =
      ⟨(getWeekInformation now).weekNumber, (getWeekInformation now).year⟩) ∧
    (∀ y : Nat, prevWeek ⟨1, y + 1⟩ = ⟨isoWeeksInYear y, y⟩) := by
  refine ⟨fun d => ⟨prevWeek_weekOfDay d, ?_⟩, ?_, ?_⟩
  · have h14 : d + 14 = (d + 7) + 7 := by omega
    rw [h14, prevWeek_weekOfDay (d + 7), prevWeek_weekOfDay d]
  · intro now
    have e : ∀ m : Nat,
        (⟨(getWeekInformation m).weekNumber, (getWeekInformation m).year⟩ :
          WeekRef) = weekOfDay (m / 86400 + 3) := by
      intro m
      simp only [getWeekInformation]
    have hd : (now + 604800) / 86400 + 3 = (now / 86400 + 3) + 7 := by omega
    rw [e, e, hd]
    exact prevWeek_weekOfDay (now / 86400 + 3)
  · intro y
    rw [prevWeek_mk, if_pos rfl]
    have h1 : y + 1 - 1 = y := by omega
    rw [h1]

/-! ## Helper lemmas

The calendar definitions are kept locally irreducible in this section:
their unfolded forms contain large-literal `Nat` subtraction chains that
the elaborator's unifier would otherwise try to reduce step by step. -/

section EngineTheorems

attribute [local irreducible] daysToYearAux daysToYear jan4 isoWeek1Start
  isoWeeksInYear isoWeekYearAux isoWeekYearOf weekOfDay weekStartDay
  getWeekInformation

theorem registerVisit_weeklyFragments (store : Store) (address : String)
    (campaignId now : Nat) :
    (registerVisit store address campaignId now).1.weeklyFragments =
      store.weeklyFragments := by
  unfold registerVisit
  cases h : findVisit store.visits address campaignId with
  | none => rfl
  | some v =>
    by_cases hday : sameUtcDay v.lastVisit now = true
    · simp [hday]
    · simp [hday]

theorem registerVisit_campaigns (store : Store) (address : String)
    (campaignId now : Nat) :
    (registerVisit store address campaignId now).1.campaigns =
      store.campaigns := by
  unfold registerVisit
  cases h : findVisit store.visits address campaignId with
  | none => rfl
  | some v =>
    by_cases hday : sameUtcDay v.lastVisit now = true
    · simp [hday]
    · simp [hday]

set_option maxRecDepth 4000 in
theorem claimWeekly_uniq (store : Store) (svc : SubgraphService)
    (address : String) (taskType : TaskType) (now cid : Nat)
    (h : UniqWeeklyFragments store.weeklyFragments) :
    UniqWeeklyFragments
      (claimWeekly store svc address taskType now cid).1.weeklyFragments := by
  cases hex : findWeeklyFragment store.weeklyFragments address cid taskType
      (getWeekInformation now).weekNumber (getWeekInformation now).year with
  | some r => simp only [claimWeekly, hex]; exact h
  | none =>
    by_cases hlt : totalUsdValue svc address taskType
        (getWeekInformation now).startDate (getWeekInformation now).endDate <
        minimumUsdThreshold
    · simp only [claimWeekly, hex, if_pos hlt]; exact h
    · simp only [claimWeekly, hex, if_neg hlt]
      unfold UniqWeeklyFragments at h ⊢
      rw [List.pairwise_cons]
      refine ⟨?_, h⟩
      intro r hr hkey
      have ha := List.find?_eq_none.mp hex r hr
      simp only [decide_eq_true_eq] at ha
      exact ha ⟨hkey.1.symm, hkey.2.1.symm, hkey.2.2.1.symm,
        hkey.2.2.2.1.symm, hkey.2.2.2.2.symm⟩

theorem findVisit_registerVisit (store : Store) (address : String)
    (cid now : Nat) :
    findVisit (registerVisit store address cid now).1.visits address cid =
      some (registerVisit store address cid now).2 := by
  cases h : findVisit store.visits address cid with
  | none =>
    simp only [registerVisit, h]
    unfold findVisit
    rw [List.find?_cons_of_pos _ (by simp)]
  | some v =>
    have hfind : store.visits.find?
        (fun x : Visit => decide (x.address = address ∧ x.campaign_id = cid)) =
        some v := h
    have hpv : (decide (v.address = address ∧ v.campaign_id = cid)) = true :=
      List.find?_some (p := fun x : Visit =>
        decide (x.address = address ∧ x.campaign_id = cid)) hfind
    by_cases hday : sameUtcDay v.lastVisit now = true
    · simp only [registerVisit, h, if_pos hday, hfind]
    · simp only [registerVisit, h, if_neg hday]
      unfold findVisit
      rw [List.find?_map]
      have hcomp :
          ((fun x : Visit => decide (x.address = address ∧ x.campaign_id = cid)) ∘
            fun x : Visit =>
              if decide (x.address = address ∧ x.campaign_id = cid) then
                { v with allVisits := v.allVisits + 1, lastVisit := now }
              else x) =
          fun x : Visit => decide (x.address = address ∧ x.campaign_id = cid) := by
        funext x
        by_cases hx : (decide (x.address = address ∧ x.campaign_id = cid)) = true
        · simp only [Function.comp_apply, hx, if_true, hpv]
        · simp only [Function.comp_apply, hx, Bool.false_eq_true, if_false]
      rw [hcomp, hfind]
      simp only [Option.map_some', if_pos hpv]


/-- C9: for every address with no Visit record for the campaign,
`getVisits` succeeds (it is a total function) and returns
`{address, allVisits := 0, lastVisit := 0}`. -/
theorem getVisits_default (store : Store) (address : String)
    (campaignId : Nat)
    (hnone : findVisit store.visits address campaignId = none) :
    getVisits store address campaignId =
      { address := address, allVisits := 0, lastVisit := 0 } := by
  unfold getVisits
  rw [hnone]

/-- C10: a claim of any task type made when no campaign satisfies
`startDate ≤ now ≤ endDate` fails with `NoActiveCampaign`, whose message
is exactly "No active campaign has been found", and the store is
unchanged. -/
theorem claim_no_active_campaign (store : Store) (svc : SubgraphService)
    (address : String) (taskType : TaskType) (now : Nat)
    (hno : ∀ c ∈ store.campaigns, ¬(c.startDate ≤ now ∧ now ≤ c.endDate)) :
    claim store svc address taskType now =
      (store, .error .noActiveCampaign) ∧
    ClaimError.noActiveCampaign.message = "No active campaign has been found" := by
  have hfilter : store.campaigns.filter (fun c => campaignActiveAt c now) = [] := by
    rw [List.filter_eq_nil_iff]
    intro c hc
    simp only [campaignActiveAt, decide_eq_true_eq]
    exact hno c hc
  have hfa : findActiveCampaign store.campaigns now = none := by
    unfold findActiveCampaign
    rw [hfilter]
  exact ⟨by simp only [claim, hfa], rfl⟩

/-- C5: a `VISIT` claim under an active campaign returns
`{type := VISIT, claimedFragments := 0}` regardless of the address's
visit count, while the store is still updated through `registerVisit`. -/
theorem claim_visit_zero_fragments (store : Store) (svc : SubgraphService)
    (address : String) (now : Nat) (c : Campaign)
    (hc : findActiveCampaign store.campaigns now = some c) :
    (claim store svc address .VISIT now).2 =
      .ok { type := .VISIT, claimedFragments := 0 } ∧
    (claim store svc address .VISIT now).1 =
      (registerVisit store address c.id now).1 := by
  refine ⟨?_, ?_⟩ <;> simp only [claim, hc]

/-- C2: a weekly claim for a bucket that already has a WeeklyFragment
record fails with `AlreadyClaimed`, whose message is exactly
"Weekly fragment for TYPE for weekDate already claimed" with the task
type and week label substituted, and the store is unchanged. -/
theorem claim_already_claimed (store : Store) (svc : SubgraphService)
    (address : String) (taskType : TaskType) (now : Nat) (c : Campaign)
    (r : WeeklyFragment)
    (htype : taskType = .LIQUIDITY_PROVISION ∨ taskType = .LIQUIDITY_STAKING)
    (hc : findActiveCampaign store.campaigns now = some c)
    (hex : findWeeklyFragment store.weeklyFragments address c.id taskType
      (getWeekInformation now).weekNumber (getWeekInformation now).year =
      some r) :
    claim store svc address taskType now =
      (store, .error (.alreadyClaimed taskType.name
        (getWeekInformation now).weekDate)) ∧
    (ClaimError.alreadyClaimed taskType.name
        (getWeekInformation now).weekDate).message =
      "Weekly fragment for " ++ taskType.name ++ " for " ++
        (getWeekInformation now).weekDate ++ " already claimed" := by
  refine ⟨?_, ?_⟩
  · rcases htype with h | h <;> subst h <;>
      simp only [claim, hc, claimWeekly, hex]
  · rfl

/-- C3: a weekly claim whose summed USD-equivalent value is strictly
below the 50 USD threshold fails with `NoClaimableFragments` (message
"No claimable fragments") and the store is unchanged — no WeeklyFragment
record is written. -/
theorem claim_below_threshold (store : Store) (svc : SubgraphService)
    (address : String) (taskType : TaskType) (now : Nat) (c : Campaign)
    (htype : taskType = .LIQUIDITY_PROVISION ∨ taskType = .LIQUIDITY_STAKING)
    (hc : findActiveCampaign store.campaigns now = some c)
    (hnone : findWeeklyFragment store.weeklyFragments address c.id taskType
      (getWeekInformation now).weekNumber (getWeekInformation now).year = none)
    (hval : totalUsdValue svc address taskType
      (getWeekInformation now).startDate (getWeekInformation now).endDate <
      minimumUsdThreshold) :
    claim store svc address taskType now =
      (store, .error .noClaimableFragments) ∧
    ClaimError.noClaimableFragments.message = "No claimable fragments" := by
  refine ⟨?_, rfl⟩
  rcases htype with h | h <;> subst h <;>
    simp only [claim, hc, claimWeekly, hnone, if_pos hval]

/-- C1: a weekly claim by an address whose two previous week buckets
(same address, campaign, type) hold 100 and 50 fragments, with the
current week's positions summing to at least 50 USD, succeeds and
returns exactly 150 claimed fragments. -/
theorem claim_streak_bonus (store : Store) (svc : SubgraphService)
    (address : String) (taskType : TaskType) (now : Nat) (c : Campaign)
    (r1 r2 : WeeklyFragment)
    (htype : taskType = .LIQUIDITY_PROVISION ∨ taskType = .LIQUIDITY_STAKING)
    (hc : findActiveCampaign store.campaigns now = some c)
    (hnone : findWeeklyFragment store.weeklyFragments address c.id taskType
      (getWeekInformation now).weekNumber (getWeekInformation now).year = none)
    (hval : minimumUsdThreshold ≤ totalUsdValue svc address taskType
      (getWeekInformation now).startDate (getWeekInformation now).endDate)
    (h1 : findWeeklyFragment store.weeklyFragments address c.id taskType
      (prevWeek ⟨(getWeekInformation now).weekNumber,
        (getWeekInformation now).year⟩).weekNumber
      (prevWeek ⟨(getWeekInformation now).weekNumber,
        (getWeekInformation now).year⟩).year = some r1)
    (h1f : r1.fragments = 100)
    (h2 : findWeeklyFragment store.weeklyFragments address c.id taskType
      (prevWeek (prevWeek ⟨(getWeekInformation now).weekNumber,
        (getWeekInformation now).year⟩)).weekNumber
      (prevWeek (prevWeek ⟨(getWeekInformation now).weekNumber,
        (getWeekInformation now).year⟩)).year = some r2)
    (h2f : r2.fragments = 50) :
    (claim store svc address taskType now).2 =
      .ok { type := taskType, claimedFragments := 150 } := by
  have hval' : ¬ (totalUsdValue svc address taskType
      (getWeekInformation now).startDate (getWeekInformation now).endDate <
      minimumUsdThreshold) := not_lt.mpr hval
  rcases htype with h | h <;> subst h <;>
    simp only [claim, hc, claimWeekly, hnone, if_neg hval', h1, h2,
      finalFragments, h1f, h2f]

/-- C4: the uniqueness invariant of WeeklyFragment records is preserved
by every claim operation, and a claim whose bucket already holds a
record fails with `AlreadyClaimed` and leaves the store unchanged rather
than creating a duplicate. -/
theorem claim_uniqueness_invariant (store : Store) (svc : SubgraphService)
    (address : String) (taskType : TaskType) (now : Nat)
    (h : UniqWeeklyFragments store.weeklyFragments) :
    UniqWeeklyFragments
      (claim store svc address taskType now).1.weeklyFragments ∧
    (∀ c r, findActiveCampaign store.campaigns now = some c →
      (taskType = .LIQUIDITY_PROVISION ∨ taskType = .LIQUIDITY_STAKING) →
      findWeeklyFragment store.weeklyFragments address c.id taskType
        (getWeekInformation now).weekNumber (getWeekInformation now).year =
        some r →
      (claim store svc address taskType now).2 =
        .error (.alreadyClaimed taskType.name
          (getWeekInformation now).weekDate) ∧
      (claim store svc address taskType now).1 = store) := by
  constructor
  · cases hfa : findActiveCampaign store.campaigns now with
    | none => simp only [claim, hfa]; exact h
    | some c =>
      cases taskType with
      | VISIT =>
        simp only [claim, hfa]
        rw [registerVisit_weeklyFragments]
        exact h
      | LIQUIDITY_PROVISION =>
        simp only [claim, hfa]
        exact claimWeekly_uniq store svc address _ now c.id h
      | LIQUIDITY_STAKING =>
        simp only [claim, hfa]
        exact claimWeekly_uniq store svc address _ now c.id h
  · intro c r hfa ht hex
    rcases ht with h' | h' <;> subst h' <;>
      exact ⟨by simp only [claim, hfa, claimWeekly, hex],
        by simp only [claim, hfa, claimWeekly, hex]⟩

theorem sameUtcDay_trans (a b c : Nat) (h1 : sameUtcDay a b = true)
    (h2 : sameUtcDay b c = true) : sameUtcDay a c = true := by
  simp only [sameUtcDay, Nat.beq_eq_true_eq] at h1 h2 ⊢
  omega

theorem registerVisit_lastVisit_sameDay (store : Store) (address : String)
    (cid now : Nat) :
    sameUtcDay (registerVisit store address cid now).2.lastVisit now =
      true := by
  cases h : findVisit store.visits address cid with
  | none =>
    simp only [registerVisit, h]
    simp [sameUtcDay]
  | some v =>
    by_cases hday : sameUtcDay v.lastVisit now = true
    · simp only [registerVisit, h, if_pos hday]
      exact hday
    · simp only [registerVisit, h, if_neg hday]
      simp [sameUtcDay]

/-- C7: registering a visit whose record's `lastVisit` falls on the same
UTC calendar day as `now` changes nothing and returns the record
unchanged; consequently two visit claims within one UTC day leave
`allVisits` (and the whole store) exactly as after the first call. -/
theorem registerVisit_same_day_idempotent (store : Store)
    (address : String) (cid : Nat) :
    (∀ now v, findVisit store.visits address cid = some v →
      sameUtcDay v.lastVisit now = true →
      registerVisit store address cid now = (store, v)) ∧
    (∀ t1 t2, sameUtcDay t1 t2 = true →
      registerVisit (registerVisit store address cid t1).1 address cid t2 =
        ((registerVisit store address cid t1).1,
          (registerVisit store address cid t1).2)) := by
  have part1 : ∀ (s : Store) now v, findVisit s.visits address cid = some v →
      sameUtcDay v.lastVisit now = true →
      registerVisit s address cid now = (s, v) := by
    intro s now v hfind hday
    simp only [registerVisit, hfind, if_pos hday]
  refine ⟨part1 store, ?_⟩
  intro t1 t2 h12
  exact part1 _ t2 _ (findVisit_registerVisit store address cid t1)
    (sameUtcDay_trans _ t1 _
      (registerVisit_lastVisit_sameDay store address cid t1) h12)

/-- C8: registering a visit whose record's `lastVisit` falls on an
earlier UTC calendar day than `now` increments `allVisits` by exactly 1
and sets `lastVisit` to `now`, both in the returned record and in the
stored one. -/
theorem registerVisit_new_day_increment (store : Store) (address : String)
    (cid now : Nat) (v : Visit)
    (hfind : findVisit store.visits address cid = some v)
    (hday : v.lastVisit / 86400 < now / 86400) :
    (registerVisit store address cid now).2 =
      { v with allVisits := v.allVisits + 1, lastVisit := now } ∧
    findVisit (registerVisit store address cid now).1.visits address cid =
      some { v with allVisits := v.allVisits + 1, lastVisit := now } := by
  have hsame : ¬ sameUtcDay v.lastVisit now = true := by
    simp only [sameUtcDay, Nat.beq_eq_true_eq]
    omega
  have h2 : (registerVisit store address cid now).2 =
      { v with allVisits := v.allVisits + 1, lastVisit := now } := by
    simp only [registerVisit, hfind, if_neg hsame]
  exact ⟨h2, by rw [findVisit_registerVisit, h2]⟩

end EngineTheorems

/-! ## Witnesses: each theorem above applied at a concrete input -/

theorem claim_streak_bonus_witness :
    (claim storeStreak svcFifty "0xA" TaskType.LIQUIDITY_PROVISION
      1000000000).2 =
      .ok { type := TaskType.LIQUIDITY_PROVISION, claimedFragments := 150 } :=
  claim_streak_bonus storeStreak svcFifty "0xA" TaskType.LIQUIDITY_PROVISION
    1000000000 wCampaign wfPrev1 wfPrev2 (Or.inl rfl) (by decide) (by decide)
    (by simp only [totalUsdValue, svcFifty, List.map_cons, List.map_nil,
          List.sum_cons, List.sum_nil, add_zero, minimumUsdThreshold]
        decide)
    (by decide) rfl (by decide) rfl

theorem claim_already_claimed_witness :
    claim storeClaimed svcFifty "0xA" TaskType.LIQUIDITY_PROVISION
      1000000000 =
      (storeClaimed, .error (.alreadyClaimed
        TaskType.LIQUIDITY_PROVISION.name
        (getWeekInformation 1000000000).weekDate)) ∧
    (ClaimError.alreadyClaimed TaskType.LIQUIDITY_PROVISION.name
        (getWeekInformation 1000000000).weekDate).message =
      "Weekly fragment for " ++ TaskType.LIQUIDITY_PROVISION.name ++ " for " ++
        (getWeekInformation 1000000000).weekDate ++ " already claimed" :=
  claim_already_claimed storeClaimed svcFifty "0xA"
    TaskType.LIQUIDITY_PROVISION 1000000000 wCampaign wfCur (Or.inl rfl)
    (by decide) (by decide)

theorem claim_below_threshold_witness :
    claim storeNoWf svcThirty "0xA" TaskType.LIQUIDITY_PROVISION
      1000000000 =
      (storeNoWf, .error .noClaimableFragments) ∧
    ClaimError.noClaimableFragments.message = "No claimable fragments" :=
  claim_below_threshold storeNoWf svcThirty "0xA"
    TaskType.LIQUIDITY_PROVISION 1000000000 wCampaign (Or.inl rfl)
    (by decide) (by decide)
    (by simp only [totalUsdValue, svcThirty, List.map_cons, List.map_nil,
          List.sum_cons, List.sum_nil, add_zero, minimumUsdThreshold]
        decide)

theorem claim_uniqueness_invariant_witness :
    UniqWeeklyFragments
      (claim storeNoWf svcFifty "0xA" TaskType.LIQUIDITY_PROVISION
        1000000000).1.weeklyFragments ∧
    (∀ c r, findActiveCampaign storeNoWf.campaigns 1000000000 = some c →
      (TaskType.LIQUIDITY_PROVISION = TaskType.LIQUIDITY_PROVISION ∨
        TaskType.LIQUIDITY_PROVISION = TaskType.LIQUIDITY_STAKING) →
      findWeeklyFragment storeNoWf.weeklyFragments "0xA" c.id
        TaskType.LIQUIDITY_PROVISION
        (getWeekInformation 1000000000).weekNumber
        (getWeekInformation 1000000000).year = some r →
      (claim storeNoWf svcFifty "0xA" TaskType.LIQUIDITY_PROVISION
        1000000000).2 =
        .error (.alreadyClaimed TaskType.LIQUIDITY_PROVISION.name
          (getWeekInformation 1000000000).weekDate) ∧
      (claim storeNoWf svcFifty "0xA" TaskType.LIQUIDITY_PROVISION
        1000000000).1 = storeNoWf) :=
  claim_uniqueness_invariant storeNoWf svcFifty "0xA"
    TaskType.LIQUIDITY_PROVISION 1000000000 List.Pairwise.nil

theorem claim_visit_zero_fragments_witness :
    (claim storeOldVisit svcFifty "0xA" TaskType.VISIT 1000000000).2 =
      .ok { type := TaskType.VISIT, claimedFragments := 0 } ∧
    (claim storeOldVisit svcFifty "0xA" TaskType.VISIT 1000000000).1 =
      (registerVisit storeOldVisit "0xA" wCampaign.id 1000000000).1 :=
  claim_visit_zero_fragments storeOldVisit svcFifty "0xA" 1000000000
    wCampaign (by decide)

theorem registerVisit_same_day_idempotent_witness :
    registerVisit storeSameDay "0xA" 1 1000003600 =
      (storeSameDay, visitToday) ∧
    registerVisit (registerVisit storeSameDay "0xA" 1 1000000000).1 "0xA" 1
        1000003600 =
      ((registerVisit storeSameDay "0xA" 1 1000000000).1,
        (registerVisit storeSameDay "0xA" 1 1000000000).2) :=
  ⟨(registerVisit_same_day_idempotent storeSameDay "0xA" 1).1 1000003600
      visitToday (by decide) (by decide),
    (registerVisit_same_day_idempotent storeSameDay "0xA" 1).2 1000000000
      1000003600 (by decide)⟩

theorem registerVisit_new_day_increment_witness :
    (registerVisit storeOldVisit "0xA" 1 1000000000).2 =
      { visitOld with
          allVisits := visitOld.allVisits + 1
          lastVisit := 1000000000 } ∧
    findVisit (registerVisit storeOldVisit "0xA" 1 1000000000).1.visits
        "0xA" 1 =
      some { visitOld with
          allVisits := visitOld.allVisits + 1
          lastVisit := 1000000000 } :=
  registerVisit_new_day_increment storeOldVisit "0xA" 1 1000000000 visitOld
    (by decide) (by decide)

theorem getVisits_default_witness :
    getVisits storeNoWf "0xB" 1 =
      { address := "0xB", allVisits := 0, lastVisit := 0 } :=
  getVisits_default storeNoWf "0xB" 1 (by decide)

theorem claim_no_active_campaign_witness :
    claim storeEmpty svcFifty "0xA" TaskType.VISIT 1000000000 =
      (storeEmpty, .error .noActiveCampaign) ∧
    ClaimError.noActiveCampaign.message =
      "No active campaign has been found" :=
  claim_no_active_campaign storeEmpty svcFifty "0xA" TaskType.VISIT
    1000000000 (by simp [storeEmpty])

end Swapr
